import Mathlib

/-!
Verification development for the zoned data-lake core of `src/data_lake.py`:
a `DataLakeStorage` zone store, a `MetadataCatalog` (SQLite-backed asset
table and lineage table), and a `DataLakeManager` orchestrating ingestion,
transformation and zone summaries.

The embedding is a shallow one.  File-system state and catalog state are
explicit values threaded through the operations; `datetime.now()` is an
explicit parameter; the possibility of a persistence failure in
`register_asset` (its `except` branch) is an explicit boolean parameter.
External collaborators that the Python code calls but the repository does
not implement (the pandas codecs, `hashlib.md5`, the `datetime` type) are
modelled at their interface boundary, as the specification prescribes; each
such definition carries a comment saying exactly what is modelled.
-/

namespace DataLakePy

/-- Left brace character, written via its code point. -/
def lbrace : Char := Char.ofNat 123

/-- Right brace character, written via its code point. -/
def rbrace : Char := Char.ofNat 125

/-- Python's `needle in haystack` substring test on strings. -/
def strContains (hay pat : String) : Bool := decide (pat.data <:+: hay.data)

/-- String suffix test (used to state facts about stored file paths). -/
def strEndsWith (s suf : String) : Bool := decide (suf.data <:+ s.data)

/-- String prefix test. -/
def strStarts (s pre : String) : Bool := decide (pre.data <+: s.data)

/-- Final path component: everything after the last '/' (pathlib `Path.name`). -/
def lastComponent (p : String) : String :=
  ⟨((p.data.reverse.takeWhile (fun c => c != '/')).reverse)⟩

/-- Pathlib's `Path.suffix`: the extension of the final component, i.e.
`name[i:]` for `i` the index of the last dot when `0 < i < len(name) - 1`,
and `""` otherwise. -/
def pathSuffix (p : String) : String :=
  let name := (lastComponent p).data
  let afterRev := name.reverse.takeWhile (fun c => c != '.')
  if afterRev.length = name.length then ""
  else if afterRev.length = 0 then ""
  else if afterRev.length + 1 = name.length then ""
  else ⟨'.' :: afterRev.reverse⟩

/-- Hex digit characters as Python's `json` emits them (lowercase). -/
def hexDigitChar (n : Nat) : Char :=
  if n < 10 then Char.ofNat (48 + n) else Char.ofNat (87 + n)

/-- Value of one hex digit character (either case), as `json.loads` reads it. -/
def hexVal (c : Char) : Option Nat :=
  if 48 ≤ c.toNat ∧ c.toNat ≤ 57 then some (c.toNat - 48)
  else if 97 ≤ c.toNat ∧ c.toNat ≤ 102 then some (c.toNat - 87)
  else if 65 ≤ c.toNat ∧ c.toNat ≤ 70 then some (c.toNat - 55)
  else none

/-- Escaping of one character in a JSON string literal, as `json.dumps`
performs it: the two-character escapes for quote, backslash and the five
named control characters, `\u00XX` for the remaining control characters,
and every other character written verbatim.  (For non-ASCII characters the
default `ensure_ascii=True` would emit `\uXXXX` instead of the verbatim
character; `json.loads` inverts both spellings identically, so round-trip
behaviour is unaffected by this simplification.) -/
def escChar (c : Char) : List Char :=
  if c = '"' then ['\\', '"']
  else if c = '\\' then ['\\', '\\']
  else if c = Char.ofNat 8 then ['\\', 'b']
  else if c = Char.ofNat 9 then ['\\', 't']
  else if c = Char.ofNat 10 then ['\\', 'n']
  else if c = Char.ofNat 12 then ['\\', 'f']
  else if c = Char.ofNat 13 then ['\\', 'r']
  else if c.toNat < 32 then
    ['\\', 'u', '0', '0', hexDigitChar (c.toNat / 16), hexDigitChar (c.toNat % 16)]
  else [c]

/-- Characters of a JSON string literal for `s`, quotes included. -/
def pyJsonStringChars (s : String) : List Char :=
  '"' :: (s.data.map escChar).flatten ++ ['"']

/-- Items joined with the separator `", "` that `json.dumps` uses by default. -/
def commaSep : List (List Char) → List Char
  | [] => []
  | [x] => x
  | x :: y :: ys => x ++ ',' :: ' ' :: commaSep (y :: ys)

/-- Python `json.dumps` on a list of strings (default separators). -/
def pyJsonList (xs : List String) : String :=
  ⟨'[' :: commaSep (xs.map pyJsonStringChars) ++ [']']⟩

/-- Characters of one `"key": "value"` member of a JSON object. -/
def pyJsonPairChars (kv : String × String) : List Char :=
  pyJsonStringChars kv.1 ++ ':' :: ' ' :: pyJsonStringChars kv.2

/-- Python `json.dumps` on a string-to-string dict (default separators);
the dict is represented as its insertion-ordered key/value list. -/
def pyJsonDict (kvs : List (String × String)) : String :=
  ⟨lbrace :: commaSep (kvs.map pyJsonPairChars) ++ [rbrace]⟩

/-- The character a short JSON escape `\e` denotes, as `json.loads` reads it. -/
def unescShort (e : Char) : Option Char :=
  if e = '"' then some '"'
  else if e = '\\' then some '\\'
  else if e = '/' then some '/'
  else if e = 'b' then some (Char.ofNat 8)
  else if e = 'f' then some (Char.ofNat 12)
  else if e = 'n' then some (Char.ofNat 10)
  else if e = 'r' then some (Char.ofNat 13)
  else if e = 't' then some (Char.ofNat 9)
  else none

/-- JSON whitespace skipping. -/
def skipSpaces (l : List Char) : List Char :=
  l.dropWhile (fun c => c == ' ' || c == Char.ofNat 9 || c == Char.ofNat 10 || c == Char.ofNat 13)

/-- Fuel-indexed parser for the body of a JSON string literal (the part after
the opening quote): returns the decoded characters and the input remaining
after the closing quote. -/
def parseStringBodyF : Nat → List Char → Option (List Char × List Char)
  | 0, _ => none
  | _ + 1, [] => none
  | fuel + 1, c :: rest =>
    if c = '"' then some ([], rest)
    else if c = '\\' then
      match rest with
      | [] => none
      | e :: rest2 =>
        if e = 'u' then
          match rest2 with
          | h1 :: h2 :: h3 :: h4 :: rest3 =>
            match hexVal h1, hexVal h2, hexVal h3, hexVal h4 with
            | some a, some b, some c2, some d =>
              match parseStringBodyF fuel rest3 with
              | some (s, r) => some (Char.ofNat (((a * 16 + b) * 16 + c2) * 16 + d) :: s, r)
              | none => none
            | _, _, _, _ => none
          | _ => none
        else
          match unescShort e with
          | some u =>
            match parseStringBodyF fuel rest2 with
            | some (s, r) => some (u :: s, r)
            | none => none
          | none => none
    else
      match parseStringBodyF fuel rest with
      | some (s, r) => some (c :: s, r)
      | none => none

/-- Fuel-indexed parser for the comma-separated items of a nonempty JSON
array of strings, consuming the closing bracket. -/
def parseListItemsF : Nat → List Char → Option (List String × List Char)
  | 0, _ => none
  | fuel + 1, l =>
    match l with
    | '"' :: t =>
      match parseStringBodyF (t.length + 1) t with
      | some (s, r) =>
        match r with
        | ']' :: r2 => some ([⟨s⟩], r2)
        | ',' :: r2 =>
          match parseListItemsF fuel (skipSpaces r2) with
          | some (xs, r3) => some (⟨s⟩ :: xs, r3)
          | none => none
        | _ => none
      | none => none
    | _ => none

/-- Python `json.loads`, restricted to JSON arrays whose elements are string
literals (the only shape this program ever stores in the `tags` column);
`none` models the exceptions `json.loads` raises on other input. -/
def jsonLoadsList (s : String) : Option (List String) :=
  match skipSpaces s.data with
  | '[' :: t =>
    match skipSpaces t with
    | ']' :: r => if skipSpaces r = [] then some [] else none
    | d :: r =>
      match parseListItemsF (r.length + 2) (d :: r) with
      | some (xs, r2) => if skipSpaces r2 = [] then some xs else none
      | none => none
    | [] => none
  | _ => none

/-- Insertion into a Python dict represented as its key/value list: an
existing key keeps its position and gets the new value, a new key is
appended. -/
def dictInsert : List (String × String) → String → String → List (String × String)
  | [], k, v => [(k, v)]
  | (k0, v0) :: rest, k, v =>
    if k0 = k then (k0, v) :: rest else (k0, v0) :: dictInsert rest k v

/-- Folding parsed object members into a Python dict (later duplicate keys
overwrite earlier ones, as in `json.loads`). -/
def dedupPairs (ps : List (String × String)) : List (String × String) :=
  ps.foldl (fun m kv => dictInsert m kv.1 kv.2) []

/-- Parser for one `"key": "value"` member of a JSON object: the key string,
the colon (with surrounding JSON whitespace), and the value string. -/
def parsePairF (l : List Char) : Option ((String × String) × List Char) :=
  match l with
  | '"' :: t =>
    match parseStringBodyF (t.length + 1) t with
    | some (k, r) =>
      match skipSpaces r with
      | ':' :: r2 =>
        match skipSpaces r2 with
        | '"' :: r3 =>
          match parseStringBodyF (r3.length + 1) r3 with
          | some (v, r4) => some ((⟨k⟩, ⟨v⟩), r4)
          | none => none
        | _ => none
      | _ => none
    | none => none
  | _ => none

/-- Fuel-indexed parser for the comma-separated members of a nonempty JSON
object with string keys and string values, consuming the closing brace. -/
def parseDictItemsF : Nat → List Char → Option (List (String × String) × List Char)
  | 0, _ => none
  | fuel + 1, l =>
    match parsePairF l with
    | some (kv, r4) =>
      match r4 with
      | c :: r5 =>
        if c = rbrace then some ([kv], r5)
        else if c = ',' then
          match parseDictItemsF fuel (skipSpaces r5) with
          | some (ps, r6) => some (kv :: ps, r6)
          | none => none
        else none
      | [] => none
    | none => none

/-- Python `json.loads`, restricted to JSON objects whose keys and values are
string literals (the only shape this program ever stores in the `schema`
column); `none` models the exceptions `json.loads` raises on other input. -/
def jsonLoadsDict (s : String) : Option (List (String × String)) :=
  match skipSpaces s.data with
  | c :: t =>
    if c = lbrace then
      match skipSpaces t with
      | d :: r =>
        if d = rbrace then (if skipSpaces r = [] then some [] else none)
        else
          match parseDictItemsF (r.length + 2) (d :: r) with
          | some (ps, r2) => if skipSpaces r2 = [] then some (dedupPairs ps) else none
          | none => none
      | [] => none
    else none
  | [] => none

/-- ASCII lower-casing, the folding SQLite's default `LIKE` applies. -/
def asciiLower (c : Char) : Char :=
  if 65 ≤ c.toNat ∧ c.toNat ≤ 90 then Char.ofNat (c.toNat + 32) else c

/-- SQLite `LIKE` pattern matching (no ESCAPE clause): `%` matches any
sequence, `_` matches any single character, and other characters compare
case-insensitively over ASCII.  The fuel argument only drives structural
recursion: every step shortens pattern or text, so `sqliteLike` below
supplies fuel that can never run out. -/
def likeMatchF : Nat → List Char → List Char → Bool
  | 0, _, _ => false
  | _ + 1, [], [] => true
  | _ + 1, [], _ :: _ => false
  | f + 1, '%' :: ps, [] => likeMatchF f ps []
  | f + 1, '%' :: ps, c :: s => likeMatchF f ps (c :: s) || likeMatchF f ('%' :: ps) s
  | _ + 1, '_' :: _, [] => false
  | f + 1, '_' :: ps, _ :: s => likeMatchF f ps s
  | _ + 1, _ :: _, [] => false
  | f + 1, p :: ps, c :: s => (asciiLower p == asciiLower c) && likeMatchF f ps s

/-- SQLite `expr LIKE pattern` on strings. -/
def sqliteLike (pattern text : String) : Bool :=
  likeMatchF (pattern.data.length + text.data.length + 1) pattern.data text.data

/-- Modelled from the spec: Python `datetime` values are out-of-repository
stdlib objects; the spec only relies on the bijection between a datetime and
its ISO-8601 text (`isoformat` / `fromisoformat`, both lossless).  A
datetime is therefore represented by its ISO text, `isoformat` is `.iso`,
and `fromisoformat` is the constructor. -/
structure DateTime where
  iso : String
deriving DecidableEq

/-- Transcription of one ISO-text character under `strftime("%Y%m%d_%H%M%S")`:
the date/time separators are dropped, the `T` becomes `_`. -/
def strftimeChar (c : Char) : Option Char :=
  if c = '-' ∨ c = ':' then none else if c = 'T' then some '_' else some c

/-- Model of `now.strftime("%Y%m%d_%H%M%S")`, computed from the ISO text: the
fractional-second part is cut, separators dropped, `T` mapped to `_`.
Second resolution means two stores within one second collide, as the spec
records. -/
def tsSecond (d : DateTime) : String :=
  ⟨(d.iso.data.takeWhile (fun c => c != '.')).filterMap strftimeChar⟩

/-- Modelled from the spec: `hashlib.md5(...).hexdigest()` is stdlib code the
repository does not implement; the program uses the digest only as an
identifier / change-detection fingerprint, so it is modelled as an injective
tagging of its input. -/
def md5Hex (s : String) : String := "md5-" ++ s

/-- One column of an in-memory tabular value: its name, its pandas dtype
rendered as a string, and its cell values. -/
structure Column where
  name : String
  dtype : String
  values : List String
deriving DecidableEq

/-- Modelled from the spec: an in-memory `pandas.DataFrame` is an external
value the core only passes to the codecs and inspects for its column→dtype
mapping; it is modelled as its list of columns. -/
structure DataFrame where
  columns : List Column
deriving DecidableEq

/-- The `{col: str(dtype) for col, dtype in data.dtypes.items()}` mapping. -/
def schemaOf (df : DataFrame) : List (String × String) :=
  df.columns.map (fun c => (c.name, c.dtype))

/-- Modelled from the spec: the encoded bytes a pandas codec writes.  The
spec (§1) treats the parquet/csv/json codecs as external collaborators
specified only as lossless encoders, so a file's content is modelled as the
written format tag together with the tabular value it encodes. -/
structure FileContent where
  format : String
  df : DataFrame
deriving DecidableEq

/-- Modelled from the spec: the byte size a codec's output would have;
only its presence in `get_file_info` matters, so any positive function of
the content serves. -/
def contentSize (c : FileContent) : Int :=
  1 + (c.df.columns.map (fun col => 1 + (col.values.length : Int))).sum

/-- Flat text rendering of a tabular value, input to the checksum model. -/
def dfText (df : DataFrame) : String :=
  String.intercalate "|" (df.columns.map (fun col =>
    col.name ++ ";" ++ col.dtype ++ ";" ++ String.intercalate "," col.values))

/-- Modelled from the spec: the whole-file content hash `_calculate_checksum`
computes; modelled as the digest model applied to a rendering of the
content. -/
def fileChecksum (c : FileContent) : String :=
  md5Hex (c.format ++ "|" ++ dfText c.df)

/-- One file on disk: its content and its write time (`st_ctime` and
`st_mtime` coincide at creation). -/
structure FileEntry where
  content : FileContent
  mtime : DateTime
deriving DecidableEq

/-- The file-system state the zone store manipulates: a path-keyed file map
and the set of directories that exist. -/
structure FS where
  files : List (String × FileEntry)
  dirs : List String
deriving DecidableEq

/-- Read the file at a path. -/
def fsLookup (fs : FS) (p : String) : Option FileEntry :=
  (fs.files.find? (fun e => e.1 == p)).map (fun e => e.2)

/-- Write a file: last writer wins at a given path. -/
def fsWrite (fs : FS) (p : String) (c : FileContent) (now : DateTime) : FS :=
  { fs with files := fs.files.filter (fun e => e.1 != p) ++ [(p, ⟨c, now⟩)] }

/-- Python `mkdir(exist_ok=True)`. -/
def mkdirIfAbsent (fs : FS) (d : String) : FS :=
  if d ∈ fs.dirs then fs else { fs with dirs := fs.dirs ++ [d] }

/-- The four recognized zones, in the insertion order of the `self.zones`
dict of `DataLakeStorage.__init__`. -/
def zoneNames : List String := ["raw", "bronze", "silver", "gold"]

/-- The directory `self.zones[zone] / dataset_name`. -/
def storeDirPath (base zone name : String) : String :=
  base ++ "/" ++ zone ++ "/" ++ name

/-- The generated filename: the dataset name, an underscore, the second-resolution timestamp, a dot, and the format tag. -/
def storeFileName (name format : String) (now : DateTime) : String :=
  name ++ "_" ++ tsSecond now ++ "." ++ format

/-- The full path `store_data` returns. -/
def storeFilePath (base zone name format : String) (now : DateTime) : String :=
  storeDirPath base zone name ++ "/" ++ storeFileName name format now

/-- Python's `s[1:]` on a string. -/
def strTail (s : String) : String := ⟨s.data.drop 1⟩

/-- Failure taxonomy: each constructor is one `raise`/missing-key site of the
Python source. -/
inductive LakeError
  | invalidZone (zone : String)
  | unsupportedFormat (format : String)
  | assetNotFound (asset_id : String)
  | fileNotFound (path : String)
  | decodeFailure (path : String)
  | fileInfoMissing (path : String)
deriving DecidableEq

/-- Model of `DataLakeStorage.store_data`: reject unknown zones, create the dataset
directory, build the timestamped filename, dispatch on the format (rejecting
unknown formats), write, and return the path.  The pair carries the
file-system state so that error cases visibly leave it as they found it. -/
def store_data (base : String) (fs : FS) (data : DataFrame) (zone : String)
    (dataset_name : String) (format : String) (now : DateTime) :
    FS × Except LakeError String :=
  if zone ∈ zoneNames then
    let fs1 := mkdirIfAbsent fs (storeDirPath base zone dataset_name)
    let fp := storeFilePath base zone dataset_name format now
    if format = "parquet" ∨ format = "csv" ∨ format = "json" then
      (fsWrite fs1 fp ⟨format, data⟩ now, Except.ok fp)
    else (fs1, Except.error (LakeError.unsupportedFormat format))
  else (fs, Except.error (LakeError.invalidZone zone))

/-- One `pd.read_*` call: the file must exist and must actually hold data
encoded by the matching codec. -/
def readAs (fs : FS) (fp : String) (format : String) : Except LakeError DataFrame :=
  match fsLookup fs fp with
  | none => Except.error (LakeError.fileNotFound fp)
  | some e =>
    if e.content.format = format then Except.ok e.content.df
    else Except.error (LakeError.decodeFailure fp)

/-- Model of `DataLakeStorage.load_data`: dispatch the decoder on the path's
extension, rejecting unrecognized extensions. -/
def load_data (fs : FS) (file_path : String) : Except LakeError DataFrame :=
  let suf := pathSuffix file_path
  if suf = ".parquet" then readAs fs file_path "parquet"
  else if suf = ".csv" then readAs fs file_path "csv"
  else if suf = ".json" then readAs fs file_path "json"
  else Except.error (LakeError.unsupportedFormat suf)

/-- Names of the immediate subdirectories of `parent` in `fs`. -/
def childNames (dirs : List String) (parent : String) : List String :=
  dirs.filterMap (fun d =>
    if strStarts d (parent ++ "/") then
      let n := d.drop (parent ++ "/").length
      if n.length != 0 && !(strContains n "/") then some n else none
    else none)

/-- Model of `DataLakeStorage.list_datasets`: empty for an unrecognized zone, else the
subdirectory names under the zone directory. -/
def list_datasets (base : String) (fs : FS) (zone : String) : List String :=
  if zone ∈ zoneNames then childNames fs.dirs (base ++ "/" ++ zone) else []

/-- The record `DataLakeStorage.get_file_info` returns for an existing path. -/
structure FileInfo where
  size_bytes : Int
  created_at : DateTime
  modified_at : DateTime
  checksum : String
deriving DecidableEq

/-- Model of `DataLakeStorage.get_file_info`: `none` models the empty dict returned
for a missing path. -/
def get_file_info (fs : FS) (p : String) : Option FileInfo :=
  (fsLookup fs p).map (fun e =>
    { size_bytes := contentSize e.content
      created_at := e.mtime
      modified_at := e.mtime
      checksum := fileChecksum e.content })

/-- The `DataAsset` dataclass.  `schema` is a Python dict and is represented
by its insertion-ordered key/value list (so its keys are pairwise distinct
in any value the Python program builds). -/
structure DataAsset where
  asset_id : String
  name : String
  path : String
  format : String
  size_bytes : Int
  created_at : DateTime
  updated_at : DateTime
  schema : List (String × String)
  tags : List String
  owner : String
  description : String
  checksum : String
deriving DecidableEq

/-- One row of the SQLite `data_assets` table: TEXT columns hold strings,
`size_bytes` is an INTEGER column. -/
structure AssetRow where
  asset_id : String
  name : String
  path : String
  format : String
  size_bytes : Int
  created_at : String
  updated_at : String
  schema : String
  tags : String
  owner : String
  description : String
  checksum : String
deriving DecidableEq

/-- The serialization `register_asset` performs when it binds the INSERT
parameters: ISO text for the timestamps, `json.dumps` for schema and tags. -/
def assetToRow (a : DataAsset) : AssetRow :=
  { asset_id := a.asset_id
    name := a.name
    path := a.path
    format := a.format
    size_bytes := a.size_bytes
    created_at := a.created_at.iso
    updated_at := a.updated_at.iso
    schema := pyJsonDict a.schema
    tags := pyJsonList a.tags
    owner := a.owner
    description := a.description
    checksum := a.checksum }

/-- The deserialization `get_asset`/`search_assets` perform on a fetched
row; `none` models the exception raised on a row whose `schema` or `tags`
cell is not `json.dumps` output of the expected shape (this program never
writes such a row). -/
def rowToAsset (r : AssetRow) : Option DataAsset :=
  match jsonLoadsDict r.schema, jsonLoadsList r.tags with
  | some sch, some tgs =>
    some { asset_id := r.asset_id
           name := r.name
           path := r.path
           format := r.format
           size_bytes := r.size_bytes
           created_at := ⟨r.created_at⟩
           updated_at := ⟨r.updated_at⟩
           schema := sch
           tags := tgs
           owner := r.owner
           description := r.description
           checksum := r.checksum }
  | _, _ => none

/-- One row of the SQLite `lineage` table. -/
structure LineageRow where
  id : Nat
  source_asset_id : String
  target_asset_id : String
  transformation : String
  created_at : String
deriving DecidableEq

/-- The catalog database: the `data_assets` table and the `lineage` table,
both created empty by `_init_database`. -/
structure Catalog where
  assets : List AssetRow
  lineage : List LineageRow
deriving DecidableEq

/-- Model of `MetadataCatalog.register_asset`.  `persistOk` models whether the
underlying SQLite write succeeds; the `except` branch reports `False` with
the table unchanged, otherwise the row is upserted (`INSERT OR REPLACE` by
the `asset_id` primary key) and `True` returned. -/
def register_asset (persistOk : Bool) (cat : Catalog) (asset : DataAsset) :
    Catalog × Bool :=
  if persistOk then
    ({ cat with assets :=
        cat.assets.filter (fun r => r.asset_id != asset.asset_id) ++ [assetToRow asset] },
     true)
  else (cat, false)

/-- Model of `MetadataCatalog.get_asset`: point lookup by primary key, deserializing
the row when found. -/
def get_asset (cat : Catalog) (asset_id : String) : Option DataAsset :=
  match cat.assets.find? (fun r => r.asset_id == asset_id) with
  | some r => rowToAsset r
  | none => none

/-- The `name LIKE ? OR description LIKE ?` disjunct of `search_assets`. -/
def rowMatchesQuery (query : String) (r : AssetRow) : Bool :=
  sqliteLike ("%" ++ query ++ "%") r.name || sqliteLike ("%" ++ query ++ "%") r.description

/-- The full WHERE clause `search_assets` builds: the query condition is
added only for a nonempty query (`if query:`), and one `tags LIKE ?`
conjunct is added per requested tag (`if tags:` plus the loop). -/
def rowMatches (query : String) (tags : List String) (r : AssetRow) : Bool :=
  (query == "" || rowMatchesQuery query r) &&
    tags.all (fun t => sqliteLike ("%" ++ t ++ "%") r.tags)

/-- The rows `search_assets`'s SELECT returns. -/
def search_rows (cat : Catalog) (query : String) (tags : List String) : List AssetRow :=
  cat.assets.filter (rowMatches query tags)

/-- Option-valued traversal used to deserialize every fetched row. -/
def optionMapM (f : α → Option β) : List α → Option (List β)
  | [] => some []
  | a :: l =>
    match f a, optionMapM f l with
    | some b, some bs => some (b :: bs)
    | _, _ => none

/-- Model of `MetadataCatalog.search_assets`: the matching rows, each deserialized;
`none` models the exception raised if any fetched row fails to
deserialize. -/
def search_assets (cat : Catalog) (query : String) (tags : List String) :
    Option (List DataAsset) :=
  optionMapM rowToAsset (search_rows cat query tags)

/-- The AUTOINCREMENT ordinal SQLite would assign to the next lineage row
(one more than the largest ever assigned; lineage rows are never deleted). -/
def nextLineageId (cat : Catalog) : Nat :=
  (cat.lineage.map (fun e => e.id)).foldr max 0 + 1

/-- Model of `MetadataCatalog.add_lineage`: append one edge stamped with the current
time; no return value and no validation of either endpoint. -/
def add_lineage (cat : Catalog) (source_id target_id transformation : String)
    (now : DateTime) : Catalog :=
  { cat with lineage := cat.lineage ++
      [{ id := nextLineageId cat
         source_asset_id := source_id
         target_asset_id := target_id
         transformation := transformation
         created_at := now.iso }] }

/-- The state a `DataLakeManager` closes over: its storage base path, the
file system, and the catalog. -/
structure LakeState where
  base : String
  fs : FS
  catalog : Catalog
deriving DecidableEq

/-- Model of `DataLakeManager.ingest_data`: store (always with the default `parquet`
format), read the file info back, synthesize the asset id from the name and
the current time, build the `DataAsset`, and register it — ignoring
`register_asset`'s boolean result.  `persistOk` models whether the catalog
write succeeds; `now` models `datetime.now()`. -/
def ingest_data (s : LakeState) (persistOk : Bool) (now : DateTime)
    (data : DataFrame) (name owner description : String) (tags : List String)
    (zone : String) : LakeState × Except LakeError String :=
  match store_data s.base s.fs data zone name "parquet" now with
  | (fs1, Except.error e) => ({ s with fs := fs1 }, Except.error e)
  | (fs1, Except.ok file_path) =>
    match get_file_info fs1 file_path with
    | none => ({ s with fs := fs1 }, Except.error (LakeError.fileInfoMissing file_path))
    | some info =>
      let asset_id := md5Hex (name ++ "_" ++ now.iso)
      let asset : DataAsset :=
        { asset_id := asset_id
          name := name
          path := file_path
          format := strTail (pathSuffix file_path)
          size_bytes := info.size_bytes
          created_at := info.created_at
          updated_at := info.modified_at
          schema := schemaOf data
          tags := tags
          owner := owner
          description := description
          checksum := info.checksum }
      let reg := register_asset persistOk s.catalog asset
      ({ s with fs := fs1, catalog := reg.1 }, Except.ok asset_id)

/-- Model of `DataLakeManager.transform_data`: look the source up (raising
`AssetNotFound` on a miss), load its file, apply the caller's function,
re-ingest into the target zone with the derived description and the
source's tags plus `"transformed"`, then record the lineage edge.
`tfnLabel` models `transformation_func.__name__`. -/
def transform_data (s : LakeState) (persistOk : Bool) (now : DateTime)
    (source_asset_id : String) (tfn : DataFrame → DataFrame) (tfnLabel : String)
    (target_name target_zone : String) : LakeState × Except LakeError String :=
  match get_asset s.catalog source_asset_id with
  | none => (s, Except.error (LakeError.assetNotFound source_asset_id))
  | some source_asset =>
    match load_data s.fs source_asset.path with
    | Except.error e => (s, Except.error e)
    | Except.ok source_data =>
      let transformed := tfn source_data
      match ingest_data s persistOk now transformed target_name source_asset.owner
          ("Transformed from " ++ source_asset.name)
          (source_asset.tags ++ ["transformed"]) target_zone with
      | (s1, Except.error e) => (s1, Except.error e)
      | (s1, Except.ok target_asset_id) =>
        ({ s1 with catalog :=
            add_lineage s1.catalog source_asset_id target_asset_id tfnLabel now },
         Except.ok target_asset_id)

/-- One entry of the zone summary.  The Python code reports
`total_size_mb = round(total_size / 2**20, 2)`; the raw byte total is kept
here, the megabyte rendering being display-only floating-point. -/
structure ZoneSummary where
  dataset_count : Nat
  asset_count : Nat
  total_size_bytes : Int
deriving DecidableEq

/-- Model of `DataLakeManager.get_zone_summary`: for each zone (in `zones` order),
the dataset count from `list_datasets` and the asset count / size total
from filtering all catalog assets by substring-matching the zone name
against the stored path.  The Python loop re-runs the unfiltered
`search_assets()` per zone with an identical result; it is hoisted here.
`none` models the deserialization exception on a corrupt row. -/
def get_zone_summary (s : LakeState) : Option (List (String × ZoneSummary)) :=
  match search_assets s.catalog "" [] with
  | none => none
  | some assets =>
    some (zoneNames.map (fun zone =>
      let datasets := list_datasets s.base s.fs zone
      let zone_assets := assets.filter (fun a => strContains a.path zone)
      (zone,
       { dataset_count := datasets.length
         asset_count := zone_assets.length
         total_size_bytes := (zone_assets.map (fun a => a.size_bytes)).sum })))

/-- Projection used to state claims about one zone's reported asset count. -/
def zoneAssetCount (s : LakeState) (zone : String) : Option Nat :=
  (get_zone_summary s).bind (fun l =>
    (l.find? (fun p => p.1 == zone)).map (fun p => p.2.asset_count))

/-- The file-system state `DataLakeStorage.__init__` establishes: the base
directory and the four zone directories exist (`mkdir(parents=True,
exist_ok=True)`), nothing else. -/
def initFS (base : String) : FS :=
  { files := []
    dirs := [base, base ++ "/raw", base ++ "/bronze", base ++ "/silver", base ++ "/gold"] }

/-- A freshly constructed `DataLakeManager`: zone directories created, both
catalog tables empty. -/
def initLake (base : String) : LakeState :=
  { base := base, fs := initFS base, catalog := { assets := [], lineage := [] } }

/-- Example tabular value used by the concrete witnesses. -/
def exDF : DataFrame :=
  ⟨[⟨"id", "int64", ["1", "2", "3"]⟩, ⟨"name", "object", ["a", "b", "c"]⟩]⟩

/-- Example instant used by the concrete witnesses. -/
def exNow : DateTime := ⟨"2026-01-01T00:00:00"⟩

/-- Example fresh lake state used by the concrete witnesses. -/
def exState : LakeState := initLake "data_lake"

/-- Example catalogued asset used by the concrete witnesses. -/
def exAsset : DataAsset :=
  { asset_id := "a1"
    name := "customers"
    path := "data_lake/raw/customers/customers_20260101_000000.parquet"
    format := "parquet"
    size_bytes := 10
    created_at := exNow
    updated_at := exNow
    schema := [("id", "int64"), ("name", "object")]
    tags := ["pii", "raw"]
    owner := "data_team"
    description := "Customer master data"
    checksum := "md5-x" }

/-- The `DataAsset` that `ingest_data` builds once storing into a valid zone
has succeeded (written out explicitly; `ingest_ok` below proves that
`ingest_data` produces exactly this record). -/
def ingestAsset (s : LakeState) (now : DateTime) (data : DataFrame)
    (name owner description : String) (tags : List String) (zone : String) : DataAsset :=
  { asset_id := md5Hex (name ++ "_" ++ now.iso)
    name := name
    path := storeFilePath s.base zone name "parquet" now
    format := strTail (pathSuffix (storeFilePath s.base zone name "parquet" now))
    size_bytes := contentSize ⟨"parquet", data⟩
    created_at := now
    updated_at := now
    schema := schemaOf data
    tags := tags
    owner := owner
    description := description
    checksum := fileChecksum ⟨"parquet", data⟩ }

/-- Example catalog row whose (serialized) tag field is the JSON text for
the single tag `"abc"`. -/
def exRowAbc : AssetRow := assetToRow { exAsset with asset_id := "a0", tags := ["abc"] }

/-- Example catalog holding only `exRowAbc`. -/
def exCatAbc : Catalog := { assets := [exRowAbc], lineage := [] }

theorem escChar_length (c : Char) : 1 ≤ (escChar c).length := by
  unfold escChar
  repeat' split
  all_goals simp

theorem escFlat_length (s : List Char) : s.length ≤ ((s.map escChar).flatten).length := by
  induction s with
  | nil => simp
  | cons c s ih =>
    have := escChar_length c
    simp only [List.map_cons, List.flatten_cons, List.length_append, List.length_cons]
    omega

theorem hexVal_hexDigitChar (n : Nat) (h : n < 16) : hexVal (hexDigitChar n) = some n := by
  interval_cases n <;> decide

theorem psb_close (f : Nat) (T : List Char) :
    parseStringBodyF (f + 1) ('"' :: T) = some ([], T) := by
  simp [parseStringBodyF]

theorem psb_plain (f : Nat) (c : Char) (T : List Char) (h1 : c ≠ '"') (h2 : c ≠ '\\') :
    parseStringBodyF (f + 1) (c :: T) =
      (parseStringBodyF f T).map (fun p => (c :: p.1, p.2)) := by
  simp only [parseStringBodyF, if_neg h1, if_neg h2]
  cases parseStringBodyF f T with
  | none => rfl
  | some p => rfl

theorem psb_escaped (f : Nat) (e u : Char) (T : List Char)
    (hu : unescShort e = some u) (he : e ≠ 'u') :
    parseStringBodyF (f + 1) ('\\' :: e :: T) =
      (parseStringBodyF f T).map (fun p => (u :: p.1, p.2)) := by
  simp only [parseStringBodyF, if_neg (by decide : ¬ ('\\' : Char) = '"'),
    if_pos (rfl : ('\\' : Char) = '\\'), if_neg he, hu]
  cases parseStringBodyF f T with
  | none => rfl
  | some p => rfl

theorem psb_unicode (f : Nat) (h1 h2 h3 h4 : Char) (a b c2 d : Nat) (T : List Char)
    (e1 : hexVal h1 = some a) (e2 : hexVal h2 = some b)
    (e3 : hexVal h3 = some c2) (e4 : hexVal h4 = some d) :
    parseStringBodyF (f + 1) ('\\' :: 'u' :: h1 :: h2 :: h3 :: h4 :: T) =
      (parseStringBodyF f T).map
        (fun p => (Char.ofNat (((a * 16 + b) * 16 + c2) * 16 + d) :: p.1, p.2)) := by
  simp only [parseStringBodyF, if_neg (by decide : ¬ ('\\' : Char) = '"'),
    if_pos (rfl : ('\\' : Char) = '\\'), if_pos (rfl : ('u' : Char) = 'u'),
    e1, e2, e3, e4]
  cases parseStringBodyF f T with
  | none => rfl
  | some p => rfl

theorem parseStringBodyF_rt (s : List Char) :
    ∀ (fuel : Nat) (rest : List Char), s.length + 1 ≤ fuel →
      parseStringBodyF fuel ((s.map escChar).flatten ++ '"' :: rest) = some (s, rest) := by
  induction s with
  | nil =>
    intro fuel rest h
    obtain ⟨f, rfl⟩ : ∃ f, fuel = f + 1 := ⟨fuel - 1, by omega⟩
    simpa using psb_close f rest
  | cons c s ih =>
    intro fuel rest h
    obtain ⟨f, rfl⟩ : ∃ f, fuel = f + 1 := ⟨fuel - 1, by omega⟩
    have hf : s.length + 1 ≤ f := by
      simp only [List.length_cons] at h; omega
    have ihf := ih f rest hf
    simp only [List.map_cons, List.flatten_cons, List.append_assoc]
    by_cases h1 : c = '"'
    · subst h1
      rw [show escChar '"' = ['\\', '"'] from by decide]
      rw [show ((['\\', '"'] : List Char) ++ ((s.map escChar).flatten ++ '"' :: rest)) =
        '\\' :: '"' :: ((s.map escChar).flatten ++ '"' :: rest) from rfl]
      rw [psb_escaped f '"' '"' _ (by decide) (by decide), ihf]
      rfl
    · by_cases h2 : c = '\\'
      · subst h2
        rw [show escChar '\\' = ['\\', '\\'] from by decide]
        rw [show ((['\\', '\\'] : List Char) ++ ((s.map escChar).flatten ++ '"' :: rest)) =
          '\\' :: '\\' :: ((s.map escChar).flatten ++ '"' :: rest) from rfl]
        rw [psb_escaped f '\\' '\\' _ (by decide) (by decide), ihf]
        rfl
      · by_cases h3 : c = Char.ofNat 8
        · subst h3
          rw [show escChar (Char.ofNat 8) = ['\\', 'b'] from by decide]
          rw [show ((['\\', 'b'] : List Char) ++ ((s.map escChar).flatten ++ '"' :: rest)) =
            '\\' :: 'b' :: ((s.map escChar).flatten ++ '"' :: rest) from rfl]
          rw [psb_escaped f 'b' (Char.ofNat 8) _ (by decide) (by decide), ihf]
          rfl
        · by_cases h4 : c = Char.ofNat 9
          · subst h4
            rw [show escChar (Char.ofNat 9) = ['\\', 't'] from by decide]
            rw [show ((['\\', 't'] : List Char) ++ ((s.map escChar).flatten ++ '"' :: rest)) =
              '\\' :: 't' :: ((s.map escChar).flatten ++ '"' :: rest) from rfl]
            rw [psb_escaped f 't' (Char.ofNat 9) _ (by decide) (by decide), ihf]
            rfl
          · by_cases h5 : c = Char.ofNat 10
            · subst h5
              rw [show escChar (Char.ofNat 10) = ['\\', 'n'] from by decide]
              rw [show ((['\\', 'n'] : List Char) ++ ((s.map escChar).flatten ++ '"' :: rest)) =
                '\\' :: 'n' :: ((s.map escChar).flatten ++ '"' :: rest) from rfl]
              rw [psb_escaped f 'n' (Char.ofNat 10) _ (by decide) (by decide), ihf]
              rfl
            · by_cases h6 : c = Char.ofNat 12
              · subst h6
                rw [show escChar (Char.ofNat 12) = ['\\', 'f'] from by decide]
                rw [show ((['\\', 'f'] : List Char) ++ ((s.map escChar).flatten ++ '"' :: rest)) =
                  '\\' :: 'f' :: ((s.map escChar).flatten ++ '"' :: rest) from rfl]
                rw [psb_escaped f 'f' (Char.ofNat 12) _ (by decide) (by decide), ihf]
                rfl
              · by_cases h7 : c = Char.ofNat 13
                · subst h7
                  rw [show escChar (Char.ofNat 13) = ['\\', 'r'] from by decide]
                  rw [show ((['\\', 'r'] : List Char) ++ ((s.map escChar).flatten ++ '"' :: rest)) =
                    '\\' :: 'r' :: ((s.map escChar).flatten ++ '"' :: rest) from rfl]
                  rw [psb_escaped f 'r' (Char.ofNat 13) _ (by decide) (by decide), ihf]
                  rfl
                · by_cases h8 : c.toNat < 32
                  · rw [show escChar c =
                        ['\\', 'u', '0', '0', hexDigitChar (c.toNat / 16),
                          hexDigitChar (c.toNat % 16)] from by
                      simp only [escChar, if_neg h1, if_neg h2, if_neg h3, if_neg h4,
                        if_neg h5, if_neg h6, if_neg h7, if_pos h8]]
                    rw [List.cons_append, List.cons_append, List.cons_append,
                      List.cons_append, List.cons_append, List.cons_append,
                      List.nil_append]
                    rw [psb_unicode f '0' '0' (hexDigitChar (c.toNat / 16))
                      (hexDigitChar (c.toNat % 16)) 0 0 (c.toNat / 16) (c.toNat % 16) _
                      (by decide) (by decide)
                      (hexVal_hexDigitChar _ (by omega))
                      (hexVal_hexDigitChar _ (by omega)), ihf]
                    rw [show ((0 * 16 + 0) * 16 + c.toNat / 16) * 16 + c.toNat % 16
                      = c.toNat from by omega]
                    rw [Char.ofNat_toNat]
                    rfl
                  · rw [show escChar c = [c] from by
                      simp only [escChar, if_neg h1, if_neg h2, if_neg h3, if_neg h4,
                        if_neg h5, if_neg h6, if_neg h7, if_neg h8]]
                    rw [List.cons_append, List.nil_append]
                    rw [psb_plain f c _ h1 h2, ihf]
                    rfl

theorem skipSpaces_space (l : List Char) : skipSpaces (' ' :: l) = skipSpaces l := by
  simp +decide [skipSpaces, List.dropWhile_cons]

theorem skipSpaces_quote (l : List Char) : skipSpaces ('"' :: l) = '"' :: l := by
  simp +decide [skipSpaces, List.dropWhile_cons]

theorem skipSpaces_nil : skipSpaces [] = [] := rfl

theorem commaSep_py_shape (y : String) (ys : List String) :
    ∃ u, commaSep ((y :: ys).map pyJsonStringChars) = '"' :: u := by
  cases ys with
  | nil => exact ⟨_, rfl⟩
  | cons z zs =>
    refine ⟨(y.data.map escChar).flatten ++ ['"'] ++
      (',' :: ' ' :: commaSep ((z :: zs).map pyJsonStringChars)), ?_⟩
    simp [commaSep, pyJsonStringChars]

theorem commaSep_py_len (xs : List String) :
    xs.length ≤ (commaSep (xs.map pyJsonStringChars)).length := by
  induction xs with
  | nil => simp [commaSep]
  | cons x xs ih =>
    cases xs with
    | nil => simp [commaSep, pyJsonStringChars]
    | cons y ys =>
      simp only [List.map_cons, commaSep, List.length_append, List.length_cons] at ih ⊢
      omega

theorem parseListItemsF_rt (xs : List String) :
    ∀ (x : String) (fuel : Nat) (rest : List Char), xs.length + 1 ≤ fuel →
      parseListItemsF fuel (commaSep ((x :: xs).map pyJsonStringChars) ++ ']' :: rest)
        = some (x :: xs, rest) := by
  induction xs with
  | nil =>
    intro x fuel rest h
    obtain ⟨f, rfl⟩ : ∃ f, fuel = f + 1 := ⟨fuel - 1, by omega⟩
    show parseListItemsF (f + 1) (pyJsonStringChars x ++ ']' :: rest) = some ([x], rest)
    rw [pyJsonStringChars]
    simp only [List.cons_append, List.append_assoc, List.singleton_append, List.nil_append]
    simp only [parseListItemsF]
    rw [parseStringBodyF_rt x.data _ (']' :: rest)
      (by simp only [List.length_append, List.length_cons]
          have := escFlat_length x.data; omega)]
    rfl
  | cons y ys ih =>
    intro x fuel rest h
    obtain ⟨f, rfl⟩ : ∃ f, fuel = f + 1 := ⟨fuel - 1, by omega⟩
    obtain ⟨u, hu⟩ := commaSep_py_shape y ys
    show parseListItemsF (f + 1)
      ((pyJsonStringChars x ++ ',' :: ' ' :: commaSep ((y :: ys).map pyJsonStringChars))
        ++ ']' :: rest) = some (x :: y :: ys, rest)
    rw [pyJsonStringChars, hu]
    simp only [List.cons_append, List.append_assoc, List.singleton_append, List.nil_append]
    simp only [parseListItemsF]
    rw [parseStringBodyF_rt x.data _
      (',' :: ' ' :: '"' :: (u ++ ']' :: rest))
      (by simp only [List.length_append, List.length_cons]
          have := escFlat_length x.data; omega)]
    show (match parseListItemsF f (skipSpaces (' ' :: '"' :: (u ++ ']' :: rest))) with
      | some (zs, r3) => some (x :: zs, r3)
      | none => none) = some (x :: y :: ys, rest)
    rw [skipSpaces_space, skipSpaces_quote]
    have hrec := ih y f rest (by simp only [List.length_cons] at h; omega)
    rw [hu] at hrec
    simp only [List.cons_append, List.append_assoc, List.singleton_append,
      List.nil_append] at hrec
    rw [hrec]

theorem jsonLoadsList_rt (xs : List String) : jsonLoadsList (pyJsonList xs) = some xs := by
  cases xs with
  | nil => decide
  | cons x xs =>
    obtain ⟨u, hu⟩ := commaSep_py_shape x xs
    have hdata : (pyJsonList (x :: xs)).data = '[' :: ('"' :: (u ++ [']'])) := by
      show ('[' :: commaSep ((x :: xs).map pyJsonStringChars)) ++ [']'] = _
      rw [hu]
      simp
    have hlen := commaSep_py_len (x :: xs)
    rw [hu] at hlen
    simp only [List.length_cons] at hlen
    have hp : parseListItemsF ((u ++ [']']).length + 2) ('"' :: (u ++ [']']))
        = some (x :: xs, []) := by
      have h2 := parseListItemsF_rt xs x ((u ++ [']']).length + 2) []
        (by simp only [List.length_append, List.length_cons]; omega)
      rw [hu] at h2
      simpa [List.cons_append] using h2
    rw [jsonLoadsList, hdata]
    rw [show skipSpaces ('[' :: ('"' :: (u ++ [']']))) = '[' :: ('"' :: (u ++ [']'])) from by
      simp +decide [skipSpaces, List.dropWhile_cons]]
    show (match skipSpaces ('"' :: (u ++ [']'])) with
      | ']' :: r => if skipSpaces r = [] then some [] else none
      | d :: r =>
        match parseListItemsF (r.length + 2) (d :: r) with
        | some (ys, r2) => if skipSpaces r2 = [] then some ys else none
        | none => none
      | [] => none) = some (x :: xs)
    rw [skipSpaces_quote]
    show (match parseListItemsF ((u ++ [']']).length + 2) ('"' :: (u ++ [']'])) with
      | some (ys, r2) => if skipSpaces r2 = [] then some ys else none
      | none => none) = some (x :: xs)
    rw [hp]
    rfl

theorem skipSpaces_colon (l : List Char) : skipSpaces (':' :: l) = ':' :: l := by
  simp +decide [skipSpaces, List.dropWhile_cons]

theorem commaSep_pair_shape (kv : String × String) (kvs : List (String × String)) :
    ∃ u, commaSep ((kv :: kvs).map pyJsonPairChars) = '"' :: u := by
  cases kvs with
  | nil =>
    refine ⟨(kv.1.data.map escChar).flatten ++ '"' :: ':' :: ' ' :: pyJsonStringChars kv.2, ?_⟩
    simp [commaSep, pyJsonPairChars, pyJsonStringChars]
  | cons z zs =>
    refine ⟨(kv.1.data.map escChar).flatten ++ '"' :: ':' :: ' ' :: (pyJsonStringChars kv.2 ++
      ',' :: ' ' :: commaSep ((z :: zs).map pyJsonPairChars)), ?_⟩
    simp [commaSep, pyJsonPairChars, pyJsonStringChars]

theorem commaSep_pair_len (kvs : List (String × String)) :
    kvs.length ≤ (commaSep (kvs.map pyJsonPairChars)).length := by
  induction kvs with
  | nil => simp [commaSep]
  | cons kv kvs ih =>
    cases kvs with
    | nil => simp [commaSep, pyJsonPairChars, pyJsonStringChars]
    | cons z zs =>
      simp only [List.map_cons, commaSep, List.length_append, List.length_cons] at ih ⊢
      omega

theorem parsePairF_rt (k v : String) (tail : List Char) :
    parsePairF ('"' :: ((k.data.map escChar).flatten ++
        '"' :: ':' :: ' ' :: '"' :: ((v.data.map escChar).flatten ++ '"' :: tail)))
      = some ((k, v), tail) := by
  simp only [parsePairF]
  rw [parseStringBodyF_rt k.data _
    (':' :: ' ' :: '"' :: ((v.data.map escChar).flatten ++ '"' :: tail))
    (by simp only [List.length_append, List.length_cons]
        have := escFlat_length k.data; omega)]
  show (match skipSpaces (':' :: ' ' :: '"' :: ((v.data.map escChar).flatten ++ '"' :: tail)) with
    | ':' :: r2 =>
      (match skipSpaces r2 with
        | '"' :: r3 =>
          match parseStringBodyF (r3.length + 1) r3 with
          | some (v4, r4) => some ((k, ⟨v4⟩), r4)
          | none => none
        | _ => none)
    | _ => none) = some ((k, v), tail)
  rw [skipSpaces_colon]
  show (match skipSpaces (' ' :: '"' :: ((v.data.map escChar).flatten ++ '"' :: tail)) with
    | '"' :: r3 =>
      match parseStringBodyF (r3.length + 1) r3 with
      | some (v4, r4) => some ((k, ⟨v4⟩), r4)
      | none => none
    | _ => none) = some ((k, v), tail)
  rw [skipSpaces_space, skipSpaces_quote]
  show (match parseStringBodyF (((v.data.map escChar).flatten ++ '"' :: tail).length + 1)
      ((v.data.map escChar).flatten ++ '"' :: tail) with
    | some (v4, r4) => some ((k, ⟨v4⟩), r4)
    | none => none) = some ((k, v), tail)
  rw [parseStringBodyF_rt v.data _ tail
    (by simp only [List.length_append, List.length_cons]
        have := escFlat_length v.data; omega)]

theorem parseDictItemsF_rt (kvs : List (String × String)) :
    ∀ (kv : String × String) (fuel : Nat) (rest : List Char), kvs.length + 1 ≤ fuel →
      parseDictItemsF fuel (commaSep ((kv :: kvs).map pyJsonPairChars) ++ rbrace :: rest)
        = some (kv :: kvs, rest) := by
  induction kvs with
  | nil =>
    intro kv fuel rest h
    obtain ⟨f, rfl⟩ : ∃ f, fuel = f + 1 := ⟨fuel - 1, by omega⟩
    show parseDictItemsF (f + 1) (pyJsonPairChars kv ++ rbrace :: rest) = some ([kv], rest)
    rw [pyJsonPairChars, pyJsonStringChars, pyJsonStringChars]
    simp only [List.cons_append, List.append_assoc, List.singleton_append, List.nil_append]
    simp only [parseDictItemsF]
    rw [parsePairF_rt kv.1 kv.2 (rbrace :: rest)]
    rfl
  | cons z zs ih =>
    intro kv fuel rest h
    obtain ⟨f, rfl⟩ : ∃ f, fuel = f + 1 := ⟨fuel - 1, by omega⟩
    obtain ⟨u, hu⟩ := commaSep_pair_shape z zs
    show parseDictItemsF (f + 1)
      ((pyJsonPairChars kv ++ ',' :: ' ' :: commaSep ((z :: zs).map pyJsonPairChars))
        ++ rbrace :: rest) = some (kv :: z :: zs, rest)
    rw [pyJsonPairChars, pyJsonStringChars, pyJsonStringChars, hu]
    simp only [List.cons_append, List.append_assoc, List.singleton_append, List.nil_append]
    simp only [parseDictItemsF]
    rw [parsePairF_rt kv.1 kv.2 (',' :: ' ' :: '"' :: (u ++ rbrace :: rest))]
    show (match parseDictItemsF f (skipSpaces (' ' :: '"' :: (u ++ rbrace :: rest))) with
      | some (ps, r6) => some (kv :: ps, r6)
      | none => none) = some (kv :: z :: zs, rest)
    rw [skipSpaces_space, skipSpaces_quote]
    have hrec := ih z f rest (by simp only [List.length_cons] at h; omega)
    rw [hu] at hrec
    simp only [List.cons_append, List.append_assoc, List.singleton_append,
      List.nil_append] at hrec
    rw [hrec]

theorem jsonLoadsDict_rt (kvs : List (String × String)) :
    jsonLoadsDict (pyJsonDict kvs) = some (dedupPairs kvs) := by
  cases kvs with
  | nil => decide
  | cons kv kvs =>
    obtain ⟨u, hu⟩ := commaSep_pair_shape kv kvs
    have hdata : (pyJsonDict (kv :: kvs)).data = lbrace :: ('"' :: (u ++ [rbrace])) := by
      show (lbrace :: commaSep ((kv :: kvs).map pyJsonPairChars)) ++ [rbrace] = _
      rw [hu]
      simp
    have hlen := commaSep_pair_len (kv :: kvs)
    rw [hu] at hlen
    simp only [List.length_cons] at hlen
    have hp : parseDictItemsF ((u ++ [rbrace]).length + 2) ('"' :: (u ++ [rbrace]))
        = some (kv :: kvs, []) := by
      have h2 := parseDictItemsF_rt kvs kv ((u ++ [rbrace]).length + 2) []
        (by simp only [List.length_append, List.length_cons]; omega)
      rw [hu] at h2
      simpa [List.cons_append] using h2
    rw [jsonLoadsDict, hdata]
    rw [show skipSpaces (lbrace :: ('"' :: (u ++ [rbrace]))) = lbrace :: ('"' :: (u ++ [rbrace]))
      from by simp +decide [skipSpaces, List.dropWhile_cons, lbrace]]
    show (if lbrace = lbrace then
      (match skipSpaces ('"' :: (u ++ [rbrace])) with
        | d :: r =>
          if d = rbrace then (if skipSpaces r = [] then some [] else none)
          else
            match parseDictItemsF (r.length + 2) (d :: r) with
            | some (ps, r2) => if skipSpaces r2 = [] then some (dedupPairs ps) else none
            | none => none
        | [] => none)
      else none) = some (dedupPairs (kv :: kvs))
    rw [if_pos rfl, skipSpaces_quote]
    show (if ('"' : Char) = rbrace then (if skipSpaces (u ++ [rbrace]) = [] then some [] else none)
      else
        match parseDictItemsF ((u ++ [rbrace]).length + 2) ('"' :: (u ++ [rbrace])) with
        | some (ps, r2) => if skipSpaces r2 = [] then some (dedupPairs ps) else none
        | none => none) = some (dedupPairs (kv :: kvs))
    rw [if_neg (by decide), hp]
    rfl

theorem dictInsert_append (acc : List (String × String)) (k v : String)
    (h : ∀ p ∈ acc, p.1 ≠ k) : dictInsert acc k v = acc ++ [(k, v)] := by
  induction acc with
  | nil => rfl
  | cons p ps ih =>
    obtain ⟨p1, p2⟩ := p
    simp only [dictInsert]
    rw [if_neg (h (p1, p2) (List.mem_cons_self _ _))]
    rw [ih (fun q hq => h q (List.mem_cons_of_mem _ hq))]
    rfl

theorem foldl_dictInsert (ps : List (String × String)) :
    ∀ acc, (ps.map Prod.fst).Nodup → (∀ p ∈ acc, p.1 ∉ ps.map Prod.fst) →
      ps.foldl (fun m kv => dictInsert m kv.1 kv.2) acc = acc ++ ps := by
  induction ps with
  | nil => intro acc _ _; simp
  | cons kv ps ih =>
    intro acc hnd hdisj
    simp only [List.foldl_cons]
    rw [dictInsert_append acc kv.1 kv.2
      (fun p hp heq => hdisj p hp (by rw [heq]; simp))]
    rw [ih (acc ++ [(kv.1, kv.2)])
      (by simp only [List.map_cons, List.nodup_cons] at hnd; exact hnd.2)
      (by intro p hp
          rcases List.mem_append.mp hp with hacc | hone
          · intro hmem
            exact hdisj p hacc (by simp only [List.map_cons, List.mem_cons]; right; exact hmem)
          · simp only [List.mem_singleton] at hone
            subst hone
            simp only [List.map_cons, List.nodup_cons] at hnd
            exact hnd.1)]
    simp

theorem dedupPairs_self (ps : List (String × String)) (h : (ps.map Prod.fst).Nodup) :
    dedupPairs ps = ps := by
  unfold dedupPairs
  rw [foldl_dictInsert ps [] h (by intro p hp; cases hp)]
  rfl

theorem takeWhile_append_stop {α : Type} (p : α → Bool) (l₁ : List α) (x : α) (l₂ : List α)
    (h : ∀ c ∈ l₁, p c = true) (hx : p x = false) :
    (l₁ ++ x :: l₂).takeWhile p = l₁ := by
  induction l₁ with
  | nil => simp [List.takeWhile_cons, hx]
  | cons c cs ih =>
    rw [List.cons_append, List.takeWhile_cons, h c (List.mem_cons_self _ _)]
    rw [if_pos rfl, ih (fun d hd => h d (List.mem_cons_of_mem _ hd))]

theorem lastComponent_append (dir fname : String) (h : '/' ∉ fname.data) :
    lastComponent (dir ++ "/" ++ fname) = fname := by
  unfold lastComponent
  have hd : (dir ++ "/" ++ fname).data = dir.data ++ '/' :: fname.data := by
    show (dir.data ++ ['/']) ++ fname.data = _
    simp
  rw [hd, List.reverse_append, List.reverse_cons, List.append_assoc, List.singleton_append]
  rw [takeWhile_append_stop _ fname.data.reverse '/' dir.data.reverse
    (fun c hc => by
      have : c ∈ fname.data := List.mem_reverse.mp hc
      simp only [bne_iff_ne, ne_eq]
      intro heq
      exact h (heq ▸ this))
    (by simp)]
  rw [List.reverse_reverse]

theorem dot_not_mem_tsSecond (d : DateTime) : '.' ∉ (tsSecond d).data := by
  intro hmem
  obtain ⟨c, hc, heq⟩ := List.mem_filterMap.mp hmem
  have hpc : (c != '.') = true := List.mem_takeWhile_imp (p := fun c => c != '.') hc
  unfold strftimeChar at heq
  split at heq
  · exact Option.noConfusion heq
  · split at heq
    · simp at heq
    · have : c = '.' := by simpa using heq
      rw [this] at hpc
      simp at hpc

theorem slash_not_mem_tsSecond (d : DateTime) (h : '/' ∉ d.iso.data) :
    '/' ∉ (tsSecond d).data := by
  intro hmem
  obtain ⟨c, hc, heq⟩ := List.mem_filterMap.mp hmem
  have hmemiso : c ∈ d.iso.data :=
    (List.takeWhile_sublist _).subset hc
  unfold strftimeChar at heq
  split at heq
  · exact Option.noConfusion heq
  · split at heq
    · simp at heq
    · have : c = '/' := by simpa using heq
      exact h (this ▸ hmemiso)

theorem storeFileName_data (name fmt : String) (now : DateTime) :
    (storeFileName name fmt now).data =
      name.data ++ '_' :: ((tsSecond now).data ++ '.' :: fmt.data) := by
  show (((name.data ++ ['_']) ++ (tsSecond now).data) ++ ['.']) ++ fmt.data = _
  simp

theorem slash_not_mem_storeFileName (name fmt : String) (now : DateTime)
    (hn : '/' ∉ name.data) (ht : '/' ∉ now.iso.data) (hf : '/' ∉ fmt.data) :
    '/' ∉ (storeFileName name fmt now).data := by
  rw [storeFileName_data]
  intro hmem
  rcases List.mem_append.mp hmem with h1 | h2
  · exact hn h1
  · rcases List.mem_cons.mp h2 with h3 | h4
    · exact absurd h3 (by decide)
    · rcases List.mem_append.mp h4 with h5 | h6
      · exact slash_not_mem_tsSecond now ht h5
      · rcases List.mem_cons.mp h6 with h7 | h8
        · exact absurd h7 (by decide)
        · exact hf h8

theorem pathSuffix_store (base zone name fmt : String) (now : DateTime)
    (hn : '/' ∉ name.data) (ht : '/' ∉ now.iso.data)
    (hfd : '.' ∉ fmt.data) (hfs : '/' ∉ fmt.data) (hfe : fmt.data ≠ []) :
    pathSuffix (storeFilePath base zone name fmt now) = "." ++ fmt := by
  have hlast : lastComponent (storeFilePath base zone name fmt now)
      = storeFileName name fmt now :=
    lastComponent_append (storeDirPath base zone name) _
      (slash_not_mem_storeFileName name fmt now hn ht hfs)
  have hrev : (storeFileName name fmt now).data.reverse.takeWhile (fun c => c != '.')
      = fmt.data.reverse := by
    rw [storeFileName_data]
    simp only [List.reverse_append, List.reverse_cons, List.append_assoc,
      List.singleton_append, List.cons_append, List.nil_append]
    rw [takeWhile_append_stop _ fmt.data.reverse '.'
      ((tsSecond now).data.reverse ++ '_' :: name.data.reverse)
      (fun c hc => by
        have : c ∈ fmt.data := List.mem_reverse.mp hc
        simp only [bne_iff_ne, ne_eq]
        intro heq
        exact hfd (heq ▸ this))
      (by simp)]
  simp only [pathSuffix, hlast, hrev]
  have hlen : (storeFileName name fmt now).data.length =
      name.data.length + 1 + (tsSecond now).data.length + 1 + fmt.data.length := by
    rw [storeFileName_data]
    simp only [List.length_append, List.length_cons]
    omega
  have hfl : fmt.data.length ≠ 0 := by
    intro h0
    exact hfe (List.eq_nil_of_length_eq_zero h0)
  rw [if_neg (by rw [List.length_reverse, hlen]; omega)]
  rw [if_neg (by rw [List.length_reverse]; omega)]
  rw [if_neg (by rw [List.length_reverse, hlen]; omega)]
  rw [List.reverse_reverse]
  rfl

theorem storeFilePath_data (base zone name fmt : String) (now : DateTime) :
    (storeFilePath base zone name fmt now).data =
      base.data ++ '/' :: (zone.data ++ '/' :: (name.data ++ '/' ::
        (storeFileName name fmt now).data)) := by
  show ((((base.data ++ ['/']) ++ zone.data ++ ['/']) ++ name.data) ++ ['/'])
      ++ (storeFileName name fmt now).data = _
  simp

theorem strContains_store_zone (base zone name fmt : String) (now : DateTime) :
    strContains (storeFilePath base zone name fmt now) zone = true := by
  unfold strContains
  rw [decide_eq_true_eq, storeFilePath_data]
  exact ⟨base.data ++ ['/'],
    '/' :: (name.data ++ '/' :: (storeFileName name fmt now).data), by simp⟩

theorem find?_key_upsert {α : Type} (key : α → String) (l : List α) (x : α) (k : String)
    (hk : key x = k) :
    (l.filter (fun r => key r != k) ++ [x]).find? (fun r => key r == k) = some x := by
  rw [List.find?_append]
  have h1 : (l.filter (fun r => key r != k)).find? (fun r => key r == k) = none := by
    rw [List.find?_eq_none]
    intro r hr
    have h2 : (key r != k) = true := (List.mem_filter.mp hr).2
    simp only [bne_iff_ne, ne_eq] at h2
    simp [h2]
  rw [h1, Option.none_or, List.find?_cons]
  simp [hk]

theorem fsLookup_fsWrite (fs : FS) (p : String) (c : FileContent) (now : DateTime) :
    fsLookup (fsWrite fs p c now) p = some ⟨c, now⟩ := by
  unfold fsLookup fsWrite
  rw [find?_key_upsert (fun e => e.1) fs.files (p, ⟨c, now⟩) p rfl]
  rfl

theorem rowToAsset_assetToRow (a : DataAsset) (h : (a.schema.map Prod.fst).Nodup) :
    rowToAsset (assetToRow a) = some a := by
  show (match jsonLoadsDict (pyJsonDict a.schema), jsonLoadsList (pyJsonList a.tags) with
    | some sch, some tgs =>
      some { asset_id := a.asset_id
             name := a.name
             path := a.path
             format := a.format
             size_bytes := a.size_bytes
             created_at := ⟨a.created_at.iso⟩
             updated_at := ⟨a.updated_at.iso⟩
             schema := sch
             tags := tgs
             owner := a.owner
             description := a.description
             checksum := a.checksum }
    | _, _ => none) = some a
  rw [jsonLoadsDict_rt, dedupPairs_self a.schema h, jsonLoadsList_rt]

theorem rowToAsset_assetToRow' (a : DataAsset) :
    rowToAsset (assetToRow a) = some { a with schema := dedupPairs a.schema } := by
  unfold rowToAsset
  rw [show (assetToRow a).schema = pyJsonDict a.schema from rfl,
    show (assetToRow a).tags = pyJsonList a.tags from rfl,
    jsonLoadsDict_rt, jsonLoadsList_rt]
  rfl

theorem ingest_ok (s : LakeState) (persistOk : Bool) (now : DateTime) (data : DataFrame)
    (name owner description : String) (tags : List String) (zone : String)
    (hz : zone ∈ zoneNames) :
    ingest_data s persistOk now data name owner description tags zone =
      ({ s with
          fs := fsWrite (mkdirIfAbsent s.fs (storeDirPath s.base zone name))
            (storeFilePath s.base zone name "parquet" now) ⟨"parquet", data⟩ now,
          catalog := (register_asset persistOk s.catalog
            (ingestAsset s now data name owner description tags zone)).1 },
       Except.ok (md5Hex (name ++ "_" ++ now.iso))) := by
  have hs : store_data s.base s.fs data zone name "parquet" now =
      (fsWrite (mkdirIfAbsent s.fs (storeDirPath s.base zone name))
        (storeFilePath s.base zone name "parquet" now) ⟨"parquet", data⟩ now,
       Except.ok (storeFilePath s.base zone name "parquet" now)) := by
    unfold store_data
    rw [if_pos hz, if_pos (Or.inl rfl)]
  have hg : get_file_info
      (fsWrite (mkdirIfAbsent s.fs (storeDirPath s.base zone name))
        (storeFilePath s.base zone name "parquet" now) ⟨"parquet", data⟩ now)
      (storeFilePath s.base zone name "parquet" now) =
      some { size_bytes := contentSize ⟨"parquet", data⟩
             created_at := now
             modified_at := now
             checksum := fileChecksum ⟨"parquet", data⟩ } := by
    unfold get_file_info
    rw [fsLookup_fsWrite]
    rfl
  simp only [ingest_data, hs, hg]
  rfl

/-- C1: for every `DataAsset` whose schema maps string column names to
string type tags and whose tags is a list of strings, after
`register_asset` succeeds, `get_asset` on the asset's id returns a record
equal to the asset in every field: the serialization of `schema`/`tags` to
JSON text and of the timestamps to ISO strings, followed by deserialization
on read, is lossless.  (The Nodup hypothesis records that a Python dict
cannot carry two equal keys.) -/
theorem C1_register_get_roundtrip (persistOk : Bool) (cat : Catalog) (a : DataAsset)
    (hreg : (register_asset persistOk cat a).2 = true)
    (hnd : (a.schema.map Prod.fst).Nodup) :
    get_asset (register_asset persistOk cat a).1 a.asset_id = some a := by
  cases persistOk with
  | false => simp [register_asset] at hreg
  | true =>
    show get_asset
      { cat with assets :=
          cat.assets.filter (fun r => r.asset_id != a.asset_id) ++ [assetToRow a] }
      a.asset_id = some a
    unfold get_asset
    rw [find?_key_upsert (fun r => r.asset_id) cat.assets (assetToRow a) a.asset_id rfl]
    show rowToAsset (assetToRow a) = some a
    rw [rowToAsset_assetToRow', dedupPairs_self a.schema hnd]

/-- C1 witness: a concrete asset registered into an empty catalog is read
back unchanged. -/
theorem C1_witness :
    get_asset (register_asset true { assets := [], lineage := [] } exAsset).1
      exAsset.asset_id = some exAsset :=
  C1_register_get_roundtrip true { assets := [], lineage := [] } exAsset rfl (by decide)

/-- C3: for every asset id with no row in the catalog, `transform_data`
fails with `AssetNotFound` and leaves the whole state (asset table, lineage
table and file system) exactly as it was. -/
theorem C3_transform_missing_source (s : LakeState) (persistOk : Bool) (now : DateTime)
    (sid : String) (tfn : DataFrame → DataFrame) (tfnLabel target_name target_zone : String)
    (h : s.catalog.assets.find? (fun r => r.asset_id == sid) = none) :
    transform_data s persistOk now sid tfn tfnLabel target_name target_zone
      = (s, Except.error (LakeError.assetNotFound sid)) := by
  have hg : get_asset s.catalog sid = none := by
    unfold get_asset
    rw [h]
  unfold transform_data
  rw [hg]

/-- C3 witness: transforming a missing id on a fresh lake fails with
`AssetNotFound` and returns the state unchanged. -/
theorem C3_witness :
    transform_data exState true exNow "missing" (fun d => d) "f" "t2" "silver"
      = (exState, Except.error (LakeError.assetNotFound "missing")) :=
  C3_transform_missing_source exState true exNow "missing" (fun d => d) "f" "t2" "silver" rfl

/-- C6: for every zone argument not among the four recognized zone names,
`store_data` fails with `InvalidZone` and the returned file-system state is
the input state: no file is written and no directory is created. -/
theorem C6_store_invalid_zone (base : String) (fs : FS) (data : DataFrame)
    (zone name format : String) (now : DateTime) (hz : zone ∉ zoneNames) :
    store_data base fs data zone name format now
      = (fs, Except.error (LakeError.invalidZone zone)) := by
  unfold store_data
  rw [if_neg hz]

/-- C6 witness: storing into the unrecognized zone `"staging"` fails and
leaves the fresh file system untouched. -/
theorem C6_witness :
    store_data "data_lake" (initFS "data_lake") exDF "staging" "t1" "parquet" exNow
      = (initFS "data_lake", Except.error (LakeError.invalidZone "staging")) :=
  C6_store_invalid_zone "data_lake" (initFS "data_lake") exDF "staging" "t1" "parquet" exNow
    (by decide)

/-- C7: for every pair of ids and every label, `add_lineage` appends exactly
one edge carrying the next ordinal and the current timestamp, leaves the
asset table untouched, and — since no hypothesis about either endpoint is
needed — performs no validation: a dangling edge is inserted successfully. -/
theorem C7_add_lineage_appends (cat : Catalog) (sid tid label : String) (now : DateTime) :
    (add_lineage cat sid tid label now).assets = cat.assets ∧
    (add_lineage cat sid tid label now).lineage = cat.lineage ++
      [{ id := nextLineageId cat
         source_asset_id := sid
         target_asset_id := tid
         transformation := label
         created_at := now.iso }] :=
  ⟨rfl, rfl⟩

/-- C2: for every valid zone name, every dataset name (one that does not
embed a path separator, which the operating system would reject), every
supported format and every tabular input, `store_data` returns the
generated path and `load_data` on that path reproduces the original tabular
content exactly. -/
theorem C2_store_load_roundtrip (base : String) (fs : FS) (data : DataFrame)
    (zone name format : String) (now : DateTime)
    (hz : zone ∈ zoneNames)
    (hf : format = "parquet" ∨ format = "csv" ∨ format = "json")
    (hn : '/' ∉ name.data) (ht : '/' ∉ now.iso.data) :
    (store_data base fs data zone name format now).2
        = Except.ok (storeFilePath base zone name format now) ∧
      load_data (store_data base fs data zone name format now).1
        (storeFilePath base zone name format now) = Except.ok data := by
  have hs : store_data base fs data zone name format now =
      (fsWrite (mkdirIfAbsent fs (storeDirPath base zone name))
        (storeFilePath base zone name format now) ⟨format, data⟩ now,
       Except.ok (storeFilePath base zone name format now)) := by
    unfold store_data
    rw [if_pos hz, if_pos hf]
  refine ⟨by rw [hs], ?_⟩
  rw [hs]
  rcases hf with h | h | h <;> subst h
  · have hsuf : pathSuffix (storeFilePath base zone name "parquet" now) = ".parquet" :=
      pathSuffix_store base zone name "parquet" now hn ht (by decide) (by decide) (by decide)
    unfold load_data
    rw [hsuf, if_pos rfl]
    unfold readAs
    rw [fsLookup_fsWrite]
    rfl
  · have hsuf : pathSuffix (storeFilePath base zone name "csv" now) = ".csv" :=
      pathSuffix_store base zone name "csv" now hn ht (by decide) (by decide) (by decide)
    unfold load_data
    rw [hsuf, if_neg (by decide), if_pos rfl]
    unfold readAs
    rw [fsLookup_fsWrite]
    rfl
  · have hsuf : pathSuffix (storeFilePath base zone name "json" now) = ".json" :=
      pathSuffix_store base zone name "json" now hn ht (by decide) (by decide) (by decide)
    unfold load_data
    rw [hsuf, if_neg (by decide), if_neg (by decide), if_pos rfl]
    unfold readAs
    rw [fsLookup_fsWrite]
    rfl

/-- C2 witness: a concrete csv store/load round trip on a fresh lake. -/
theorem C2_witness :
    (store_data "data_lake" (initFS "data_lake") exDF "raw" "t1" "csv" exNow).2
        = Except.ok (storeFilePath "data_lake" "raw" "t1" "csv" exNow) ∧
      load_data (store_data "data_lake" (initFS "data_lake") exDF "raw" "t1" "csv" exNow).1
        (storeFilePath "data_lake" "raw" "t1" "csv" exNow) = Except.ok exDF :=
  C2_store_load_roundtrip "data_lake" (initFS "data_lake") exDF "raw" "t1" "csv" exNow
    (by decide) (by decide) (by decide) (by decide)

theorem ingest_invalid_zone (s : LakeState) (persistOk : Bool) (now : DateTime)
    (data : DataFrame) (name owner description : String) (tags : List String)
    (zone : String) (hz : zone ∉ zoneNames) :
    ingest_data s persistOk now data name owner description tags zone
      = (s, Except.error (LakeError.invalidZone zone)) := by
  unfold ingest_data
  have hs : store_data s.base s.fs data zone name "parquet" now
      = (s.fs, Except.error (LakeError.invalidZone zone)) := by
    unfold store_data
    rw [if_neg hz]
  rw [hs]

/-- C4: ingestion is a fixed non-atomic sequence: whenever it reports an
error (its storage write or file-info read failed), no catalog row has been
written; an invalid zone fails the whole operation with the state
unchanged; and when the catalog registration reports failure, ingestion
still leaves the physical file written in step one on disk with the catalog
unchanged — no cleanup happens. -/
theorem C4_ingest_two_phase :
    (∀ (s : LakeState) (persistOk : Bool) (now : DateTime) (data : DataFrame)
        (name owner description : String) (tags : List String) (zone : String)
        (e : LakeError),
      (ingest_data s persistOk now data name owner description tags zone).2
          = Except.error e →
      (ingest_data s persistOk now data name owner description tags zone).1.catalog
          = s.catalog) ∧
    (∀ (s : LakeState) (persistOk : Bool) (now : DateTime) (data : DataFrame)
        (name owner description : String) (tags : List String) (zone : String),
      zone ∉ zoneNames →
      ingest_data s persistOk now data name owner description tags zone
        = (s, Except.error (LakeError.invalidZone zone))) ∧
    (∀ (s : LakeState) (now : DateTime) (data : DataFrame)
        (name owner description : String) (tags : List String) (zone : String),
      zone ∈ zoneNames →
      (ingest_data s false now data name owner description tags zone).2
          = Except.ok (md5Hex (name ++ "_" ++ now.iso)) ∧
        (ingest_data s false now data name owner description tags zone).1.catalog
          = s.catalog ∧
        fsLookup (ingest_data s false now data name owner description tags zone).1.fs
          (storeFilePath s.base zone name "parquet" now)
          = some ⟨⟨"parquet", data⟩, now⟩) := by
  refine ⟨?_, ?_, ?_⟩
  · intro s persistOk now data name owner description tags zone e hike
    by_cases hz : zone ∈ zoneNames
    · rw [ingest_ok s persistOk now data name owner description tags zone hz] at hike
      simp at hike
    · rw [ingest_invalid_zone s persistOk now data name owner description tags zone hz]
  · intro s persistOk now data name owner description tags zone hz
    exact ingest_invalid_zone s persistOk now data name owner description tags zone hz
  · intro s now data name owner description tags zone hz
    rw [ingest_ok s false now data name owner description tags zone hz]
    exact ⟨rfl, rfl, fsLookup_fsWrite _ _ _ _⟩

/-- C9: when catalog registration reports failure, `ingest_data` still
completes normally and returns the freshly synthesized asset id with no
error; the catalog is unchanged, so if that id was fresh the returned id
refers to no catalog row — the manager never inspects `register_asset`'s
boolean result. -/
theorem C9_ingest_ignores_registration (s : LakeState) (now : DateTime) (data : DataFrame)
    (name owner description : String) (tags : List String) (zone : String)
    (hz : zone ∈ zoneNames) :
    (ingest_data s false now data name owner description tags zone).2
        = Except.ok (md5Hex (name ++ "_" ++ now.iso)) ∧
      (ingest_data s false now data name owner description tags zone).1.catalog
        = s.catalog ∧
      ((∀ r ∈ s.catalog.assets, r.asset_id ≠ md5Hex (name ++ "_" ++ now.iso)) →
        get_asset (ingest_data s false now data name owner description tags zone).1.catalog
          (md5Hex (name ++ "_" ++ now.iso)) = none) := by
  rw [ingest_ok s false now data name owner description tags zone hz]
  refine ⟨rfl, rfl, ?_⟩
  intro hfresh
  show get_asset s.catalog (md5Hex (name ++ "_" ++ now.iso)) = none
  unfold get_asset
  rw [List.find?_eq_none.mpr (fun r hr => by simp [hfresh r hr])]

/-- C9 witness: on a fresh lake with failing persistence the returned id is
the synthesized one, and it resolves to no catalog row. -/
theorem C9_witness :
    (ingest_data exState false exNow exDF "t1" "own" "d" [] "raw").2
        = Except.ok (md5Hex ("t1" ++ "_" ++ exNow.iso)) ∧
      (ingest_data exState false exNow exDF "t1" "own" "d" [] "raw").1.catalog
        = exState.catalog ∧
      ((∀ r ∈ exState.catalog.assets, r.asset_id ≠ md5Hex ("t1" ++ "_" ++ exNow.iso)) →
        get_asset (ingest_data exState false exNow exDF "t1" "own" "d" [] "raw").1.catalog
          (md5Hex ("t1" ++ "_" ++ exNow.iso)) = none) :=
  C9_ingest_ignores_registration exState exNow exDF "t1" "own" "d" [] "raw" (by decide)

/-- C10: every ingest stores in the parquet encoding: the caller cannot pass
a format to `ingest_data`, and the asset row it registers has format
`"parquet"` and a path ending in `".parquet"`.  (The two path hypotheses
exclude path separators inside the dataset name or the timestamp, which the
operating system would reject anyway.) -/
theorem C10_ingest_parquet (s : LakeState) (now : DateTime) (data : DataFrame)
    (name owner description : String) (tags : List String) (zone : String)
    (hz : zone ∈ zoneNames) (hn : '/' ∉ name.data) (ht : '/' ∉ now.iso.data) :
    (ingest_data s true now data name owner description tags zone).2
        = Except.ok (md5Hex (name ++ "_" ++ now.iso)) ∧
      ∃ r : AssetRow,
        (ingest_data s true now data name owner description tags zone).1.catalog.assets
          = s.catalog.assets.filter
              (fun x => x.asset_id != md5Hex (name ++ "_" ++ now.iso)) ++ [r] ∧
        r.format = "parquet" ∧ strEndsWith r.path ".parquet" = true := by
  rw [ingest_ok s true now data name owner description tags zone hz]
  refine ⟨rfl, assetToRow (ingestAsset s now data name owner description tags zone),
    rfl, ?_, ?_⟩
  · show strTail (pathSuffix (storeFilePath s.base zone name "parquet" now)) = "parquet"
    rw [pathSuffix_store s.base zone name "parquet" now hn ht
      (by decide) (by decide) (by decide)]
    decide
  · show strEndsWith (storeFilePath s.base zone name "parquet" now) ".parquet" = true
    unfold strEndsWith
    rw [decide_eq_true_eq]
    refine ⟨s.base.data ++ '/' :: (zone.data ++ '/' :: (name.data ++ '/' ::
      (name.data ++ '_' :: (tsSecond now).data))), ?_⟩
    rw [show (".parquet" : String).data = '.' :: ("parquet" : String).data from rfl]
    rw [storeFilePath_data, storeFileName_data]
    simp

/-- C10 witness: a concrete ingest registers a parquet row with a
`.parquet` path. -/
theorem C10_witness :
    (ingest_data exState true exNow exDF "t1" "own" "d" [] "raw").2
        = Except.ok (md5Hex ("t1" ++ "_" ++ exNow.iso)) ∧
      ∃ r : AssetRow,
        (ingest_data exState true exNow exDF "t1" "own" "d" [] "raw").1.catalog.assets
          = exState.catalog.assets.filter
              (fun x => x.asset_id != md5Hex ("t1" ++ "_" ++ exNow.iso)) ++ [r] ∧
        r.format = "parquet" ∧ strEndsWith r.path ".parquet" = true :=
  C10_ingest_parquet exState exNow exDF "t1" "own" "d" [] "raw"
    (by decide) (by decide) (by decide)

/-- C5 counterexample: the one-row catalog whose asset is tagged `["abc"]`
is returned by a tag search for `"A"` even though `"A"` is not a substring
of the serialized tag field: SQLite's default `LIKE` compares ASCII letters
case-insensitively, so membership is not equivalent to substring
containment. -/
theorem C5_counterexample :
    exRowAbc ∈ search_rows exCatAbc "" ["A"] ∧
      strContains exRowAbc.tags "A" = false := by
  constructor
  · decide
  · decide

/-- C5 (amended): an asset row is in the result of a tag-only search iff it
is in the catalog and, for each requested tag, the SQLite pattern
`%tag%` LIKE-matches the serialized tag field (`%`/`_` act as wildcards and
ASCII letters compare case-insensitively); substring containment of each
tag is sufficient but not necessary.  In particular a requested tag `"a"`
matches an asset tagged `"abc"`. -/
theorem C5_search_tags_like :
    (∀ (cat : Catalog) (tags : List String) (r : AssetRow),
      r ∈ search_rows cat "" tags ↔
        r ∈ cat.assets ∧ ∀ t ∈ tags, sqliteLike ("%" ++ t ++ "%") r.tags = true) ∧
    sqliteLike ("%" ++ "a" ++ "%") (pyJsonList ["abc"]) = true := by
  constructor
  · intro cat tags r
    simp +decide [search_rows, rowMatches, List.mem_filter, List.all_eq_true]
  · decide

/-- C8: starting from an empty lake, after ingesting exactly one asset into
zone `raw` and none elsewhere, the zone summary reports an asset count of
at least one for `raw` and zero for `bronze`, `silver` and `gold`, provided
no other zone's name occurs as a substring of the ingested asset's path. -/
theorem C8_zone_summary_single_raw (base name owner description : String)
    (data : DataFrame) (tags : List String) (now : DateTime)
    (hb : strContains (storeFilePath base "raw" name "parquet" now) "bronze" = false)
    (hs : strContains (storeFilePath base "raw" name "parquet" now) "silver" = false)
    (hg : strContains (storeFilePath base "raw" name "parquet" now) "gold" = false) :
    (∃ n, zoneAssetCount
        (ingest_data (initLake base) true now data name owner description tags "raw").1
        "raw" = some n ∧ 1 ≤ n) ∧
      zoneAssetCount
        (ingest_data (initLake base) true now data name owner description tags "raw").1
        "bronze" = some 0 ∧
      zoneAssetCount
        (ingest_data (initLake base) true now data name owner description tags "raw").1
        "silver" = some 0 ∧
      zoneAssetCount
        (ingest_data (initLake base) true now data name owner description tags "raw").1
        "gold" = some 0 := by
  have hok := ingest_ok (initLake base) true now data name owner description tags "raw"
    (by decide)
  have hcat : (ingest_data (initLake base) true now data name owner description tags
      "raw").1.catalog
      = { assets := [assetToRow
            (ingestAsset (initLake base) now data name owner description tags "raw")]
          lineage := [] } := by
    rw [hok]
    rfl
  have hsearch : search_assets
      (ingest_data (initLake base) true now data name owner description tags
        "raw").1.catalog "" []
      = some [{ ingestAsset (initLake base) now data name owner description tags "raw" with
          schema := dedupPairs (schemaOf data) }] := by
    rw [hcat]
    unfold search_assets search_rows
    rw [show List.filter (rowMatches "" [])
        [assetToRow (ingestAsset (initLake base) now data name owner description tags "raw")]
        = [assetToRow (ingestAsset (initLake base) now data name owner description tags "raw")]
      from by simp +decide [rowMatches, List.filter]]
    unfold optionMapM
    rw [rowToAsset_assetToRow']
    rfl
  have hraw : strContains
      ({ ingestAsset (initLake base) now data name owner description tags "raw" with
        schema := dedupPairs (schemaOf data) } : DataAsset).path "raw" = true := by
    show strContains (storeFilePath base "raw" name "parquet" now) "raw" = true
    exact strContains_store_zone base "raw" name "parquet" now
  have hb' : strContains
      ({ ingestAsset (initLake base) now data name owner description tags "raw" with
        schema := dedupPairs (schemaOf data) } : DataAsset).path "bronze" = false := hb
  have hs' : strContains
      ({ ingestAsset (initLake base) now data name owner description tags "raw" with
        schema := dedupPairs (schemaOf data) } : DataAsset).path "silver" = false := hs
  have hg' : strContains
      ({ ingestAsset (initLake base) now data name owner description tags "raw" with
        schema := dedupPairs (schemaOf data) } : DataAsset).path "gold" = false := hg
  refine ⟨⟨1, ?_, le_refl 1⟩, ?_, ?_, ?_⟩
  · unfold zoneAssetCount get_zone_summary
    rw [hsearch]
    simp +decide [zoneNames, List.find?, List.filter, hraw]
  · unfold zoneAssetCount get_zone_summary
    rw [hsearch]
    simp +decide [zoneNames, List.find?, List.filter, hb']
  · unfold zoneAssetCount get_zone_summary
    rw [hsearch]
    simp +decide [zoneNames, List.find?, List.filter, hs']
  · unfold zoneAssetCount get_zone_summary
    rw [hsearch]
    simp +decide [zoneNames, List.find?, List.filter, hg']

/-- C8 witness: one concrete ingest into `raw` on a fresh lake yields a raw
asset count of one and zero for the other three zones. -/
theorem C8_witness :
    (∃ n, zoneAssetCount
        (ingest_data (initLake "data_lake") true exNow exDF "t1" "own" "d" [] "raw").1
        "raw" = some n ∧ 1 ≤ n) ∧
      zoneAssetCount
        (ingest_data (initLake "data_lake") true exNow exDF "t1" "own" "d" [] "raw").1
        "bronze" = some 0 ∧
      zoneAssetCount
        (ingest_data (initLake "data_lake") true exNow exDF "t1" "own" "d" [] "raw").1
        "silver" = some 0 ∧
      zoneAssetCount
        (ingest_data (initLake "data_lake") true exNow exDF "t1" "own" "d" [] "raw").1
        "gold" = some 0 :=
  C8_zone_summary_single_raw "data_lake" "t1" "own" "d" exDF [] exNow
    (by decide) (by decide) (by decide)

end DataLakePy
